import Mathlib

/-!
Shallow embedding of `simplematrixbotlib/config.py` (the `Config` dataclass:
an access-control policy store holding a `join_on_invite` flag plus regex
allow/block lists), together with theorems settling the specification claims.

Modelling choices, all mirroring the Python source:

* A compiled regex pattern (`re.Pattern`) is modelled by `RePattern`, a
  wrapper around its source string.  CPython's `re.compile` caches compiled
  patterns by source string, so two patterns compiled from the same string
  are equal set members; equality on `RePattern` is equality of the source
  string, matching this behaviour.
* Whether a string compiles is decided by the external regex engine, which is
  not part of this repository; all definitions are therefore parameterised by
  `env : String → Bool` (`env s = true` iff `re.compile s` succeeds).  A small
  concrete stand-in engine `reDemoValid` (rejecting unbalanced brackets, so
  that the spec's examples `"a.*"`, `"c"` compile and `"b["` does not) is used
  by the closed witness/counterexample theorems.
* `re.compile` applied to an already-compiled pattern returns that pattern
  unchanged and never fails; the candidates handed to `_check_set_regex` are
  therefore `StrOrPat` values (raw strings or compiled patterns).
* Python `set`s are modelled by `Finset`; `set.union` is `∪`, set difference
  is `\`.  Iteration order of a Python set is unspecified, so candidate
  batches are modelled as lists (fixing one iteration order).
* The Python field `_join_on_invite` is dynamically typed (its setter installs
  any value), so the field holds a `PyVal`; TOML mappings map keys to `PyVal`s.
* `print` output is modelled by returning the list of printed lines alongside
  the new state; the Python methods return `None`, i.e. no success/failure
  value reaches the caller beyond this stdout text.
* Exceptions (`TypeError` from iterating a non-iterable value, `KeyError` from
  a missing TOML table) are modelled with `Except`; `re.error` is caught
  inside `_check_set_regex` and never escapes, matching the source.
* The TOML encoder/decoder is an external collaborator; at the level modelled
  here it faithfully transports the mapping handed to it (spec §1/§6 scope it
  out as "load a mapping / emit a mapping").
-/

/-- A compiled regular-expression pattern: `re.Pattern`, identified (as a set
member) by its source string `pattern`, matching CPython's compile cache. -/
structure RePattern where
  pattern : String
deriving DecidableEq, Repr

/-- A candidate handed to `re.compile`: either a raw string (which may fail to
compile) or an already-compiled pattern (which `re.compile` returns as-is). -/
inductive StrOrPat where
  | s (v : String)
  | p (v : RePattern)
deriving DecidableEq, Repr

/-- A Python value as it occurs in the config mappings: a bool, a non-boolean
scalar (to model untyped values such as an integer), a list of
strings/patterns, or a set of compiled patterns (as produced by `asdict`). -/
inductive PyVal where
  | vbool (b : Bool)
  | vint (n : Int)
  | vlist (l : List StrOrPat)
  | vpats (ps : Finset RePattern)
deriving DecidableEq

/-- Exceptions that the modelled code can raise. -/
inductive PyError where
  | typeError
  | keyError
deriving DecidableEq

instance {ε α : Type} [DecidableEq ε] [DecidableEq α] : DecidableEq (Except ε α) :=
  fun x y =>
    match x, y with
    | .ok a, .ok b => decidable_of_iff (a = b) (by simp)
    | .error a, .error b => decidable_of_iff (a = b) (by simp)
    | .ok _, .error _ => isFalse (by simp)
    | .error _, .ok _ => isFalse (by simp)

/-- `re.compile`, relative to the engine `env`: a string compiles iff
`env` accepts it, and an already-compiled pattern is returned unchanged. -/
def re_compile (env : String → Bool) : StrOrPat → Option RePattern
  | .s v => if env v then some ⟨v⟩ else none
  | .p v => some v

/-- The diagnostic line printed by `_check_set_regex` for a bad candidate. -/
def errMsg (v : String) : String :=
  v ++ " is not a valid regular expression. Ignoring your list update."

/-- The source string of a candidate, as it appears in the printed message. -/
def StrOrPat.text : StrOrPat → String
  | .s v => v
  | .p v => v.pattern

/-- `Config._check_set_regex`: compile each candidate in turn; on the first
failure print one diagnostic and return `none` (admitting nothing), otherwise
return the set of compiled patterns.  The second component is stdout. -/
def _check_set_regex (env : String → Bool) :
    List StrOrPat → Option (Finset RePattern) × List String
  | [] => (some ∅, [])
  | v :: rest =>
    match re_compile env v with
    | none => (none, [errMsg v.text])
    | some tmp =>
      match _check_set_regex env rest with
      | (none, out) => (none, out)
      | (some new_list, out) => (some (insert tmp new_list), out)

/-- The `Config` dataclass state. -/
structure Config where
  _join_on_invite : PyVal := .vbool true
  _allowlist : Finset RePattern := ∅
  _blocklist : Finset RePattern := ∅
deriving DecidableEq

/-- A `Config()` built from the dataclass defaults. -/
def defaultConfig : Config := {}

/-- The `join_on_invite` property setter: installs any value unchanged. -/
def join_on_invite_set (c : Config) (value : PyVal) : Config :=
  { c with _join_on_invite := value }

/-- The `allowlist` property setter: validate, and on success replace the
allowlist; on failure leave the state unchanged.  Returns (state, stdout). -/
def allowlist_set (env : String → Bool) (c : Config) (value : List StrOrPat) :
    Config × List String :=
  match _check_set_regex env value with
  | (none, out) => (c, out)
  | (some checked, out) => ({ c with _allowlist := checked }, out)

/-- `Config.add_allowlist`: validate, and on success union into the
allowlist; on failure leave the state unchanged. -/
def add_allowlist (env : String → Bool) (c : Config) (value : List StrOrPat) :
    Config × List String :=
  match _check_set_regex env value with
  | (none, out) => (c, out)
  | (some checked, out) => ({ c with _allowlist := c._allowlist ∪ checked }, out)

/-- `Config.remove_allowlist`: validate, and on success subtract from the
allowlist; on failure leave the state unchanged. -/
def remove_allowlist (env : String → Bool) (c : Config) (value : List StrOrPat) :
    Config × List String :=
  match _check_set_regex env value with
  | (none, out) => (c, out)
  | (some checked, out) => ({ c with _allowlist := c._allowlist \ checked }, out)

/-- The `blocklist` property setter: validate, and on success replace the
blocklist; on failure leave the state unchanged. -/
def blocklist_set (env : String → Bool) (c : Config) (value : List StrOrPat) :
    Config × List String :=
  match _check_set_regex env value with
  | (none, out) => (c, out)
  | (some checked, out) => ({ c with _blocklist := checked }, out)

/-- `Config.add_blocklist`: validate, and on success union into the
blocklist; on failure leave the state unchanged. -/
def add_blocklist (env : String → Bool) (c : Config) (value : List StrOrPat) :
    Config × List String :=
  match _check_set_regex env value with
  | (none, out) => (c, out)
  | (some checked, out) => ({ c with _blocklist := c._blocklist ∪ checked }, out)

/-- `Config.remove_blocklist`: validate, and on success subtract from the
blocklist; on failure leave the state unchanged. -/
def remove_blocklist (env : String → Bool) (c : Config) (value : List StrOrPat) :
    Config × List String :=
  match _check_set_regex env value with
  | (none, out) => (c, out)
  | (some checked, out) => ({ c with _blocklist := c._blocklist \ checked }, out)

/-- The result of the property setters on a set of already-compiled patterns
(the values `asdict` puts in a saved mapping): `re.compile` returns each
pattern unchanged and never fails, so validation succeeds with the same set
and prints nothing.  `check_set_regex_on_patterns` below proves this is
exactly what `_check_set_regex` computes on any enumeration of the set. -/
def allowlist_set_pats (c : Config) (ps : Finset RePattern) : Config × List String :=
  ({ c with _allowlist := ps }, [])

/-- Compiled-pattern analogue of `blocklist_set`; see `allowlist_set_pats`. -/
def blocklist_set_pats (c : Config) (ps : Finset RePattern) : Config × List String :=
  ({ c with _blocklist := ps }, [])

/-- `_strip_leading_underscore`: `tmp[1:] if tmp[0] == '_' else tmp`,
written over the character list (Python raises `IndexError` on the empty
string, which never occurs: field names are nonempty). -/
def _strip_leading_underscore (tmp : String) : String :=
  match tmp.toList with
  | '_' :: rest => ⟨rest⟩
  | _ => tmp

/-- The dataclass field names of `Config`, in declaration order. -/
def configFieldNames : List String :=
  ["_join_on_invite", "_allowlist", "_blocklist"]

/-- `existing_fields` as computed inside `_load_config_dict`. -/
def existing_fields : List String :=
  configFieldNames.map _strip_leading_underscore

/-- One `setattr(self, key, value)` for a stripped field name `key`: property
setters intercept the assignment.  Iterating a non-iterable value inside
`_check_set_regex` raises `TypeError` (modelled; the partially-updated state
carried by a Python exception is not needed by any claim and is dropped). -/
def setattr0 (env : String → Bool) (c : Config) (key : String) (value : PyVal) :
    Except PyError (Config × List String) :=
  if key = "join_on_invite" then .ok (join_on_invite_set c value, [])
  else if key = "allowlist" then
    match value with
    | .vlist l => .ok (allowlist_set env c l)
    | .vpats ps => .ok (allowlist_set_pats c ps)
    | _ => .error .typeError
  else if key = "blocklist" then
    match value with
    | .vlist l => .ok (blocklist_set env c l)
    | .vpats ps => .ok (blocklist_set_pats c ps)
    | _ => .error .typeError
  else .ok (c, [])

/-- `Config._load_config_dict`: assign each key that names an existing field
(after underscore stripping), skip every other key.  Returns the final state
and accumulated stdout. -/
def _load_config_dict (env : String → Bool) :
    Config → List (String × PyVal) → Except PyError (Config × List String)
  | c, [] => .ok (c, [])
  | c, (key, value) :: rest =>
    if key ∈ existing_fields then
      match setattr0 env c key value with
      | .ok (c2, out1) =>
        match _load_config_dict env c2 rest with
        | .ok (c3, out2) => .ok (c3, out1 ++ out2)
        | .error e => .error e
      | .error e => .error e
    else _load_config_dict env c rest

/-- The inner `{field: value}` mapping of a config document. -/
abbrev ConfigDict := List (String × PyVal)

/-- A decoded TOML document: top-level tables of tables of values. -/
abbrev TomlDoc := List (String × List (String × ConfigDict))

/-- The field/value pairs produced by `dataclasses.asdict(self)`:
`copy.deepcopy` of a compiled pattern is the pattern itself, so the
allow/block sets are carried as sets of compiled patterns. -/
def asdict_items (c : Config) : ConfigDict :=
  [("_join_on_invite", c._join_on_invite),
   ("_allowlist", .vpats c._allowlist),
   ("_blocklist", .vpats c._blocklist)]

/-- `_config_dict_factory`: nest the stripped field names under the fixed
`simplematrixbotlib` / `config` keys. -/
def _config_dict_factory (tmp : ConfigDict) : TomlDoc :=
  [("simplematrixbotlib",
    [("config", tmp.map fun nv => (_strip_leading_underscore nv.1, nv.2))])]

/-- `Config.save_toml`: the mapping handed to the TOML encoder. -/
def save_toml (c : Config) : TomlDoc :=
  _config_dict_factory (asdict_items c)

/-- `Config.load_toml`: extract `['simplematrixbotlib']['config']` from the
decoded document (a missing table raises `KeyError`) and load it. -/
def load_toml (env : String → Bool) (c : Config) (doc : TomlDoc) :
    Except PyError (Config × List String) :=
  match (doc.lookup "simplematrixbotlib").bind (fun t => t.lookup "config") with
  | some config_dict => _load_config_dict env c config_dict
  | none => .error .keyError

/-- A concrete stand-in for the external regex engine, used only to evaluate
closed statements: a pattern is accepted iff its square brackets pair up, so
`"a.*"`, `"c"`, `"^bad@"` compile and `"b["`, `"d["` do not. -/
def reDemoValid (s : String) : Bool :=
  s.toList.count '[' == s.toList.count ']'

/-- A demo store whose allowlist already holds the compiled `"a.*"`. -/
def cDemo : Config := { defaultConfig with _allowlist := {⟨"a.*"⟩} }

/-- The set of patterns a fully valid batch compiles to. -/
def compiledSet (env : String → Bool) (l : List StrOrPat) : Finset RePattern :=
  (l.filterMap (re_compile env)).toFinset

/-- Every pattern in the set compiles under the engine (for a real Python
`re.Pattern` this holds by construction). -/
def PatternsValid (env : String → Bool) (s : Finset RePattern) : Prop :=
  ∀ p ∈ s, env p.pattern = true

instance (env : String → Bool) (s : Finset RePattern) :
    Decidable (PatternsValid env s) :=
  inferInstanceAs (Decidable (∀ p ∈ s, env p.pattern = true))

/-- The spec §3 invariant on a store: every member of the allowlist and the
blocklist compiles under the engine in use. -/
def ConfigInv (env : String → Bool) (c : Config) : Prop :=
  PatternsValid env c._allowlist ∧ PatternsValid env c._blocklist

instance (env : String → Bool) (c : Config) : Decidable (ConfigInv env c) :=
  inferInstanceAs (Decidable (PatternsValid env c._allowlist ∧
    PatternsValid env c._blocklist))

/-- A candidate is engine-valid: raw strings carry no prior guarantee (they
are about to be checked), while an already-compiled pattern must have come
out of a successful compile. -/
def candOk (env : String → Bool) : StrOrPat → Bool
  | .s _ => true
  | .p p => env p.pattern

/-- All compiled patterns embedded in a mapping value compile under the
engine (true of any value a real Python process can hold). -/
def PyVal.patsValid (env : String → Bool) : PyVal → Prop
  | .vlist l => ∀ x ∈ l, candOk env x = true
  | .vpats ps => PatternsValid env ps
  | _ => True

instance (env : String → Bool) : (v : PyVal) → Decidable (v.patsValid env)
  | .vbool _ => .isTrue trivial
  | .vint _ => .isTrue trivial
  | .vlist l => inferInstanceAs (Decidable (∀ x ∈ l, candOk env x = true))
  | .vpats ps => inferInstanceAs (Decidable (PatternsValid env ps))

/-- `v` is an array of raw strings (the shape §6 prescribes for persisted
pattern sets). -/
def PyVal.isStrArray : PyVal → Bool
  | .vlist l => l.all fun x => match x with | .s _ => true | .p _ => false
  | _ => false

/-- The patterns a mapping value denotes when it is trusted verbatim, without
validation: each raw string becomes a pattern with that source text, compiled
patterns are kept.  (Only list/set shaped values are relevant here.) -/
def PyVal.rawPatterns : PyVal → Finset RePattern
  | .vlist l => (l.map fun x => RePattern.mk x.text).toFinset
  | .vpats ps => ps
  | _ => ∅

/-- The spec's-words version of the load operation, for comparison with
`_load_config_dict` (spec §4.1: "for each key in the mapping that matches a
known logical field name, assign it to the corresponding field verbatim (no
validation is re-applied to the raw patterns coming from the mapping)";
unknown keys are skipped). -/
def loadFrom_spec (c : Config) : List (String × PyVal) → Config
  | [] => c
  | (key, value) :: rest =>
    if key = "join_on_invite" then
      loadFrom_spec { c with _join_on_invite := value } rest
    else if key = "allowlist" then
      loadFrom_spec { c with _allowlist := value.rawPatterns } rest
    else if key = "blocklist" then
      loadFrom_spec { c with _blocklist := value.rawPatterns } rest
    else loadFrom_spec c rest

/-! ### Helper lemmas about `_check_set_regex` -/

/-- On a list of already-compiled patterns, `_check_set_regex` succeeds with
the corresponding set and prints nothing: the direct model used in
`allowlist_set_pats` / `blocklist_set_pats` agrees with the source's code
path for every iteration order of the pattern set. -/
theorem check_set_regex_on_patterns (env : String → Bool) (l : List RePattern) :
    _check_set_regex env (l.map .p) = (some l.toFinset, []) := by
  induction l with
  | nil => rfl
  | cons p rest ih => simp [_check_set_regex, re_compile, ih]

/-- If some candidate fails to compile, validation returns `none`. -/
theorem check_none_of_invalid (env : String → Bool) (l : List StrOrPat)
    (h : ∃ x ∈ l, re_compile env x = none) :
    ∃ out, _check_set_regex env l = (none, out) := by
  induction l with
  | nil => simp at h
  | cons v rest ih =>
    cases hv : re_compile env v with
    | none => exact ⟨[errMsg v.text], by simp [_check_set_regex, hv]⟩
    | some tmp =>
      rcases h with ⟨x, hx, hxc⟩
      rcases List.mem_cons.1 hx with rfl | hx'
      · rw [hv] at hxc; exact absurd hxc (by simp)
      · rcases ih ⟨x, hx', hxc⟩ with ⟨out, hout⟩
        exact ⟨out, by simp [_check_set_regex, hv, hout]⟩

/-- If every candidate compiles, validation succeeds with the compiled set
and prints nothing. -/
theorem check_some_of_all_valid (env : String → Bool) (l : List StrOrPat)
    (h : ∀ x ∈ l, (re_compile env x).isSome = true) :
    _check_set_regex env l = (some (compiledSet env l), []) := by
  induction l with
  | nil => rfl
  | cons v rest ih =>
    rcases Option.isSome_iff_exists.1 (h v (by simp)) with ⟨tmp, htmp⟩
    have hrest := ih fun x hx => h x (by simp [hx])
    simp [_check_set_regex, htmp, hrest, compiledSet, List.filterMap_cons]

/-- Every pattern admitted by a successful validation compiles under the
engine, provided any pre-compiled candidates did. -/
theorem check_some_patterns_valid (env : String → Bool) (l : List StrOrPat)
    (s : Finset RePattern) (out : List String)
    (hchk : _check_set_regex env l = (some s, out))
    (hl : ∀ x ∈ l, candOk env x = true) : PatternsValid env s := by
  induction l generalizing s out with
  | nil =>
    simp [_check_set_regex] at hchk
    simp [PatternsValid, hchk.1.symm]
  | cons v rest ih =>
    cases hv : re_compile env v with
    | none => simp [_check_set_regex, hv] at hchk
    | some tmp =>
      rcases hq : _check_set_regex env rest with ⟨o, out'⟩
      cases o with
      | none => simp [_check_set_regex, hv, hq] at hchk
      | some s' =>
        have hs : s = insert tmp s' := by
          simp [_check_set_regex, hv, hq] at hchk
          exact hchk.1.symm
        have htmp : env tmp.pattern = true := by
          cases v with
          | s w =>
            simp [re_compile] at hv
            rcases hv with ⟨hw, htmp'⟩
            rw [← htmp']
            exact hw
          | p q =>
            simp [re_compile] at hv
            rw [← hv]
            exact hl (.p q) (by simp)
        have hrest : PatternsValid env s' :=
          ih s' out' hq fun x hx => hl x (List.mem_cons_of_mem _ hx)
        intro p hp
        rw [hs] at hp
        rcases Finset.mem_insert.1 hp with rfl | hp'
        · exact htmp
        · exact hrest p hp'

/-- If the first failing candidate (in iteration order) is `x`, validation
fails printing exactly one diagnostic line naming `x`. -/
theorem check_of_find_invalid (env : String → Bool) (l : List StrOrPat)
    (x : StrOrPat) (h : l.find? (fun y => (re_compile env y).isNone) = some x) :
    _check_set_regex env l = (none, [errMsg x.text]) := by
  induction l with
  | nil => simp at h
  | cons v rest ih =>
    cases hv : re_compile env v with
    | none =>
      have : v = x := by
        rw [List.find?_cons_of_pos _ (by simp [hv])] at h
        exact Option.some.inj h
      subst this
      simp [_check_set_regex, hv]
    | some tmp =>
      rw [List.find?_cons_of_neg _ (by simp [hv])] at h
      simp [_check_set_regex, hv, ih h]

/-- A batch of raw strings containing an invalid one, viewed as candidates,
contains a candidate that fails to compile. -/
theorem exists_invalid_of_map_s (env : String → Bool) (value : List String)
    (h : ∃ s ∈ value, env s = false) :
    ∃ x ∈ value.map StrOrPat.s, re_compile env x = none := by
  rcases h with ⟨s, hs, hns⟩
  exact ⟨.s s, List.mem_map_of_mem _ hs, by simp [re_compile, hns]⟩

/-! ### Claim theorems -/

/-- C1: for every store state and every candidate batch of strings in which at
least one string fails to compile, each of the six mutating operations
(setting, adding to, or removing from the allowlist or blocklist) leaves the
store exactly unchanged — none of the candidates, valid ones included, is
admitted. -/
theorem c1_invalid_batch_is_all_or_nothing
    (env : String → Bool) (c : Config) (value : List String)
    (h : ∃ s ∈ value, env s = false) :
    (allowlist_set env c (value.map .s)).1 = c ∧
    (add_allowlist env c (value.map .s)).1 = c ∧
    (remove_allowlist env c (value.map .s)).1 = c ∧
    (blocklist_set env c (value.map .s)).1 = c ∧
    (add_blocklist env c (value.map .s)).1 = c ∧
    (remove_blocklist env c (value.map .s)).1 = c := by
  rcases check_none_of_invalid env (value.map .s)
    (exists_invalid_of_map_s env value h) with ⟨out, hq⟩
  simp [allowlist_set, add_allowlist, remove_allowlist, blocklist_set,
    add_blocklist, remove_blocklist, hq]

/-- C1 witness: the spec's own example — allowlist `{"a.*"}`, batch
`{"b[", "c"}` with `"b["` malformed — is rejected whole by all six
operations. -/
theorem c1_invalid_batch_is_all_or_nothing_witness :
    (allowlist_set reDemoValid cDemo (["b[", "c"].map .s)).1 = cDemo ∧
    (add_allowlist reDemoValid cDemo (["b[", "c"].map .s)).1 = cDemo ∧
    (remove_allowlist reDemoValid cDemo (["b[", "c"].map .s)).1 = cDemo ∧
    (blocklist_set reDemoValid cDemo (["b[", "c"].map .s)).1 = cDemo ∧
    (add_blocklist reDemoValid cDemo (["b[", "c"].map .s)).1 = cDemo ∧
    (remove_blocklist reDemoValid cDemo (["b[", "c"].map .s)).1 = cDemo :=
  c1_invalid_batch_is_all_or_nothing reDemoValid cDemo ["b[", "c"]
    ⟨"b[", by decide, by decide⟩

/-- C9: every allowlist mutation leaves the blocklist and the
`join_on_invite` flag unchanged, and every blocklist mutation leaves the
allowlist and the flag unchanged — whether validation succeeds or fails. -/
theorem c9_mutations_frame_other_fields
    (env : String → Bool) (c : Config) (value : List StrOrPat) :
    ((allowlist_set env c value).1._blocklist = c._blocklist ∧
     (allowlist_set env c value).1._join_on_invite = c._join_on_invite) ∧
    ((add_allowlist env c value).1._blocklist = c._blocklist ∧
     (add_allowlist env c value).1._join_on_invite = c._join_on_invite) ∧
    ((remove_allowlist env c value).1._blocklist = c._blocklist ∧
     (remove_allowlist env c value).1._join_on_invite = c._join_on_invite) ∧
    ((blocklist_set env c value).1._allowlist = c._allowlist ∧
     (blocklist_set env c value).1._join_on_invite = c._join_on_invite) ∧
    ((add_blocklist env c value).1._allowlist = c._allowlist ∧
     (add_blocklist env c value).1._join_on_invite = c._join_on_invite) ∧
    ((remove_blocklist env c value).1._allowlist = c._allowlist ∧
     (remove_blocklist env c value).1._join_on_invite = c._join_on_invite) := by
  rcases hq : _check_set_regex env value with ⟨o, out⟩
  cases o <;>
    simp [allowlist_set, add_allowlist, remove_allowlist, blocklist_set,
      add_blocklist, remove_blocklist, hq]

/-- C8: adding a batch of strings that all compile is idempotent — a second
identical `add_allowlist` / `add_blocklist` call yields the same target set
as a single call. -/
theorem c8_add_twice_eq_add_once
    (env : String → Bool) (c : Config) (value : List String)
    (h : ∀ s ∈ value, env s = true) :
    (add_allowlist env (add_allowlist env c (value.map .s)).1 (value.map .s)).1
      = (add_allowlist env c (value.map .s)).1 ∧
    (add_blocklist env (add_blocklist env c (value.map .s)).1 (value.map .s)).1
      = (add_blocklist env c (value.map .s)).1 := by
  have hall : ∀ x ∈ value.map StrOrPat.s, (re_compile env x).isSome = true := by
    intro x hx
    rcases List.mem_map.1 hx with ⟨s, hs, rfl⟩
    simp [re_compile, h s hs]
  have hq := check_some_of_all_valid env (value.map .s) hall
  constructor <;>
    simp [add_allowlist, add_blocklist, hq, Finset.union_assoc]

/-- C8 witness: adding `{"a.*", "c"}` twice to a fresh store equals adding it
once, for both lists. -/
theorem c8_add_twice_eq_add_once_witness :
    (add_allowlist reDemoValid
        (add_allowlist reDemoValid defaultConfig (["a.*", "c"].map .s)).1
        (["a.*", "c"].map .s)).1
      = (add_allowlist reDemoValid defaultConfig (["a.*", "c"].map .s)).1 ∧
    (add_blocklist reDemoValid
        (add_blocklist reDemoValid defaultConfig (["a.*", "c"].map .s)).1
        (["a.*", "c"].map .s)).1
      = (add_blocklist reDemoValid defaultConfig (["a.*", "c"].map .s)).1 :=
  c8_add_twice_eq_add_once reDemoValid defaultConfig ["a.*", "c"] (by decide)

/-- Validity of pattern sets is preserved by union. -/
theorem patterns_valid_union (env : String → Bool) {s t : Finset RePattern}
    (hs : PatternsValid env s) (ht : PatternsValid env t) :
    PatternsValid env (s ∪ t) := by
  intro p hp
  rcases Finset.mem_union.1 hp with h | h
  · exact hs p h
  · exact ht p h

/-- Validity of pattern sets is preserved by set difference. -/
theorem patterns_valid_sdiff (env : String → Bool) {s t : Finset RePattern}
    (hs : PatternsValid env s) : PatternsValid env (s \ t) :=
  fun p hp => hs p (Finset.mem_sdiff.1 hp).1

/-- A single validated `setattr` preserves the store invariant, given that
any compiled patterns inside the assigned value are engine-valid. -/
theorem setattr0_preserves_inv (env : String → Bool) (c : Config)
    (key : String) (v : PyVal) (r : Config × List String)
    (hc : ConfigInv env c) (hv : v.patsValid env)
    (h : setattr0 env c key v = .ok r) : ConfigInv env r.1 := by
  unfold setattr0 at h
  split_ifs at h with h1 h2 h3
  · cases h
    exact hc
  · cases v with
    | vbool b => cases h
    | vint n => cases h
    | vlist l =>
      simp only [Except.ok.injEq] at h
      rcases hq : _check_set_regex env l with ⟨o, out⟩
      cases o with
      | none =>
        rw [← h]
        simp [allowlist_set, hq]
        exact hc
      | some s =>
        have hs := check_some_patterns_valid env l s out hq hv
        rw [← h]
        simp [allowlist_set, hq]
        exact ⟨hs, hc.2⟩
    | vpats ps =>
      simp only [Except.ok.injEq] at h
      rw [← h]
      exact ⟨hv, hc.2⟩
  · cases v with
    | vbool b => cases h
    | vint n => cases h
    | vlist l =>
      simp only [Except.ok.injEq] at h
      rcases hq : _check_set_regex env l with ⟨o, out⟩
      cases o with
      | none =>
        rw [← h]
        simp [blocklist_set, hq]
        exact hc
      | some s =>
        have hs := check_some_patterns_valid env l s out hq hv
        rw [← h]
        simp [blocklist_set, hq]
        exact ⟨hc.1, hs⟩
    | vpats ps =>
      simp only [Except.ok.injEq] at h
      rw [← h]
      exact ⟨hc.1, hv⟩
  · cases h
    exact hc

/-- A successful `_load_config_dict` preserves the store invariant, given
that the compiled patterns inside the mapping's values are engine-valid. -/
theorem load_config_dict_preserves_inv (env : String → Bool) :
    ∀ (d : List (String × PyVal)) (c : Config) (r : Config × List String),
      ConfigInv env c → (∀ kv ∈ d, kv.2.patsValid env) →
      _load_config_dict env c d = .ok r → ConfigInv env r.1 := by
  intro d
  induction d with
  | nil =>
    intro c r hc _ h
    rw [_load_config_dict] at h
    cases h
    exact hc
  | cons kv rest ih =>
    obtain ⟨key, value⟩ := kv
    intro c r hc hd h
    rw [_load_config_dict] at h
    by_cases hk : key ∈ existing_fields
    · rw [if_pos hk] at h
      rcases hs : setattr0 env c key value with e | ⟨c2, out1⟩ <;>
        simp only [hs] at h
      · cases h
      · rcases hr : _load_config_dict env c2 rest with e | ⟨c3, out2⟩ <;>
          simp only [hr] at h
        · cases h
        · cases h
          have hc2 : ConfigInv env c2 :=
            setattr0_preserves_inv env c key value (c2, out1) hc
              (hd (key, value) (by simp)) hs
          exact ih c2 (c3, out2) hc2
            (fun kv' h' => hd kv' (List.mem_cons_of_mem _ h')) hr
    · rw [if_neg hk] at h
      exact ih c r hc (fun kv' h' => hd kv' (List.mem_cons_of_mem _ h')) h

/-- C5: starting from a store whose lists hold only engine-valid patterns,
every mutating operation on a batch of strings, and every successful load of
a mapping whose embedded patterns are engine-valid, again yields lists whose
members all compile — strings that fail to compile are never admitted — and
the lists contain no duplicate compiled-pattern values. -/
theorem c5_lists_hold_only_compiled_patterns
    (env : String → Bool) (c : Config) (value : List String)
    (d : List (String × PyVal))
    (hc : ConfigInv env c) (hd : ∀ kv ∈ d, kv.2.patsValid env) :
    ConfigInv env (allowlist_set env c (value.map .s)).1 ∧
    ConfigInv env (add_allowlist env c (value.map .s)).1 ∧
    ConfigInv env (remove_allowlist env c (value.map .s)).1 ∧
    ConfigInv env (blocklist_set env c (value.map .s)).1 ∧
    ConfigInv env (add_blocklist env c (value.map .s)).1 ∧
    ConfigInv env (remove_blocklist env c (value.map .s)).1 ∧
    (∀ r, _load_config_dict env c d = .ok r → ConfigInv env r.1) ∧
    (add_allowlist env c (value.map .s)).1._allowlist.toList.Nodup ∧
    (add_blocklist env c (value.map .s)).1._blocklist.toList.Nodup := by
  have hval : ∀ x ∈ value.map StrOrPat.s, candOk env x = true := by
    intro x hx
    rcases List.mem_map.1 hx with ⟨s, _, rfl⟩
    rfl
  rcases hq : _check_set_regex env (value.map .s) with ⟨o, out⟩
  refine ⟨?_, ?_, ?_, ?_, ?_, ?_,
    fun r h => load_config_dict_preserves_inv env d c r hc hd h,
    Finset.nodup_toList _, Finset.nodup_toList _⟩ <;>
    cases o with
    | none =>
      simp [allowlist_set, add_allowlist, remove_allowlist, blocklist_set,
        add_blocklist, remove_blocklist, hq]
      exact hc
    | some s =>
      have hs := check_some_patterns_valid env (value.map .s) s out hq hval
      simp only [allowlist_set, add_allowlist, remove_allowlist, blocklist_set,
        add_blocklist, remove_blocklist, hq]
      first
      | exact ⟨hs, hc.2⟩
      | exact ⟨patterns_valid_union env hc.1 hs, hc.2⟩
      | exact ⟨patterns_valid_sdiff env hc.1, hc.2⟩
      | exact ⟨hc.1, hs⟩
      | exact ⟨hc.1, patterns_valid_union env hc.2 hs⟩
      | exact ⟨hc.1, patterns_valid_sdiff env hc.2⟩

/-- C5 witness: instantiated at the demo store, the batch `{"c"}` and a
mapping that sets the blocklist to `{"^bad@"}` and the flag to `false`. -/
theorem c5_lists_hold_only_compiled_patterns_witness :
    ConfigInv reDemoValid (allowlist_set reDemoValid cDemo (["c"].map .s)).1 ∧
    ConfigInv reDemoValid (add_allowlist reDemoValid cDemo (["c"].map .s)).1 ∧
    ConfigInv reDemoValid (remove_allowlist reDemoValid cDemo (["c"].map .s)).1 ∧
    ConfigInv reDemoValid (blocklist_set reDemoValid cDemo (["c"].map .s)).1 ∧
    ConfigInv reDemoValid (add_blocklist reDemoValid cDemo (["c"].map .s)).1 ∧
    ConfigInv reDemoValid (remove_blocklist reDemoValid cDemo (["c"].map .s)).1 ∧
    ConfigInv reDemoValid
      ({ _join_on_invite := .vbool false, _allowlist := {⟨"a.*"⟩},
         _blocklist := {⟨"^bad@"⟩} } : Config) ∧
    (add_allowlist reDemoValid cDemo (["c"].map .s)).1._allowlist.toList.Nodup ∧
    (add_blocklist reDemoValid cDemo (["c"].map .s)).1._blocklist.toList.Nodup := by
  have T := c5_lists_hold_only_compiled_patterns reDemoValid cDemo ["c"]
    [("blocklist", .vlist [.s "^bad@"]), ("join_on_invite", .vbool false)]
    (by decide) (by decide)
  exact ⟨T.1, T.2.1, T.2.2.1, T.2.2.2.1, T.2.2.2.2.1, T.2.2.2.2.2.1,
    T.2.2.2.2.2.2.1
      ({ _join_on_invite := .vbool false, _allowlist := {⟨"a.*"⟩},
         _blocklist := {⟨"^bad@"⟩} }, []) (by decide),
    T.2.2.2.2.2.2.2.1, T.2.2.2.2.2.2.2.2⟩

/-- C7 counterexample: on the batch `{"b[", "d["}` (both malformed) the
operation prints a diagnostic only for the first candidate — the second
failing candidate is never reported — and the call yields nothing but the
unchanged store and that stdout line: no error value of any kind. -/
theorem c7_counterexample_second_offender_unreported :
    (add_allowlist reDemoValid defaultConfig [.s "b[", .s "d["]).2
      = [errMsg "b["] ∧
    errMsg "d[" ∉ (add_allowlist reDemoValid defaultConfig [.s "b[", .s "d["]).2 ∧
    (add_allowlist reDemoValid defaultConfig [.s "b[", .s "d["]).1
      = defaultConfig := by
  decide

/-- C7 (amended): when validation fails, each mutating operation leaves the
store unchanged and prints exactly one diagnostic line naming the first
candidate (in iteration order) that failed to compile; later failures go
unreported and no error value or exception reaches the caller — the printed
line is the only failure signal. -/
theorem c7_failure_prints_first_offender_only
    (env : String → Bool) (c : Config) (value : List StrOrPat) (x : StrOrPat)
    (h : value.find? (fun y => (re_compile env y).isNone) = some x) :
    allowlist_set env c value = (c, [errMsg x.text]) ∧
    add_allowlist env c value = (c, [errMsg x.text]) ∧
    remove_allowlist env c value = (c, [errMsg x.text]) ∧
    blocklist_set env c value = (c, [errMsg x.text]) ∧
    add_blocklist env c value = (c, [errMsg x.text]) ∧
    remove_blocklist env c value = (c, [errMsg x.text]) := by
  have hq := check_of_find_invalid env value x h
  simp [allowlist_set, add_allowlist, remove_allowlist, blocklist_set,
    add_blocklist, remove_blocklist, hq]

/-- C7 witness: on `{"c", "b["}` the first failing candidate is `"b["` and
each operation prints exactly its diagnostic, leaving the store unchanged. -/
theorem c7_failure_prints_first_offender_only_witness :
    allowlist_set reDemoValid cDemo [.s "c", .s "b["] = (cDemo, [errMsg "b["]) ∧
    add_allowlist reDemoValid cDemo [.s "c", .s "b["] = (cDemo, [errMsg "b["]) ∧
    remove_allowlist reDemoValid cDemo [.s "c", .s "b["] = (cDemo, [errMsg "b["]) ∧
    blocklist_set reDemoValid cDemo [.s "c", .s "b["] = (cDemo, [errMsg "b["]) ∧
    add_blocklist reDemoValid cDemo [.s "c", .s "b["] = (cDemo, [errMsg "b["]) ∧
    remove_blocklist reDemoValid cDemo [.s "c", .s "b["] = (cDemo, [errMsg "b["]) :=
  c7_failure_prints_first_offender_only reDemoValid cDemo [.s "c", .s "b["]
    (.s "b[") (by decide)

/-- C2 counterexample: loading a mapping whose allowlist entry holds the raw
string `"b["` re-applies regex validation — the code prints the validation
diagnostic and leaves the field unchanged — whereas assigning the value
verbatim, as the claim states, would have changed the store. -/
theorem c2_counterexample_load_revalidates :
    _load_config_dict reDemoValid defaultConfig [("allowlist", .vlist [.s "b["])]
      = .ok (defaultConfig, [errMsg "b["]) ∧
    loadFrom_spec defaultConfig [("allowlist", .vlist [.s "b["])]
      ≠ defaultConfig := by
  decide

/-- C2 (amended): each known key is assigned through the corresponding
property setter — `join_on_invite` verbatim, but allowlist/blocklist values
are re-validated: every raw pattern string is recompiled and the field
receives the compiled set, and if any string fails to compile the field is
left unchanged. -/
theorem c2_load_routes_known_keys_through_setters
    (env : String → Bool) (c : Config) (v : PyVal) (l : List StrOrPat) :
    _load_config_dict env c [("join_on_invite", v)]
      = .ok (join_on_invite_set c v, []) ∧
    _load_config_dict env c [("allowlist", .vlist l)]
      = .ok (allowlist_set env c l) ∧
    _load_config_dict env c [("blocklist", .vlist l)]
      = .ok (blocklist_set env c l) ∧
    ((∃ x ∈ l, re_compile env x = none) →
      (allowlist_set env c l).1 = c ∧ (blocklist_set env c l).1 = c) := by
  refine ⟨rfl, ?_, ?_, ?_⟩
  · rcases hq : _check_set_regex env l with ⟨o, out⟩
    cases o <;>
      simp [_load_config_dict, setattr0, allowlist_set, existing_fields,
        configFieldNames, _strip_leading_underscore, hq]
  · rcases hq : _check_set_regex env l with ⟨o, out⟩
    cases o <;>
      simp [_load_config_dict, setattr0, blocklist_set, existing_fields,
        configFieldNames, _strip_leading_underscore, hq]
  · intro h
    rcases check_none_of_invalid env l h with ⟨out, hq⟩
    simp [allowlist_set, blocklist_set, hq]

/-- C2 witness: the flag value is installed verbatim, and a malformed raw
string in the batch leaves the allowlist setter's target unchanged. -/
theorem c2_load_routes_known_keys_through_setters_witness :
    _load_config_dict reDemoValid cDemo [("join_on_invite", .vbool false)]
      = .ok (join_on_invite_set cDemo (.vbool false), []) ∧
    (allowlist_set reDemoValid cDemo [.s "b["]).1 = cDemo := by
  have T := c2_load_routes_known_keys_through_setters reDemoValid cDemo
    (.vbool false) [.s "b["]
  exact ⟨T.1, (T.2.2.2 ⟨.s "b[", by decide, by decide⟩).1⟩

/-- C3 counterexample: for a store whose allowlist holds the compiled
pattern `a.*`, the saved mapping's allowlist entry is the set of compiled
pattern objects, not an array of raw source strings as the claim states. -/
theorem c3_counterexample_save_emits_pattern_objects :
    ((save_toml cDemo).lookup "simplematrixbotlib").bind
        (fun t => (t.lookup "config").bind fun d => d.lookup "allowlist")
      = some (.vpats {⟨"a.*"⟩}) ∧
    (PyVal.vpats {⟨"a.*"⟩}).isStrArray = false := by
  decide

/-- C3 (amended): the save operation emits exactly the three logical fields,
with leading underscores stripped and nested under the fixed
`simplematrixbotlib` / `config` keys, the flag value verbatim — but the
allow/block lists are handed over as the sets of compiled patterns
themselves (the external encoder then stringifies each pattern's repr), not
as arrays of their source strings. -/
theorem c3_save_emits_stripped_fields_under_namespace (c : Config) :
    save_toml c = [("simplematrixbotlib", [("config",
      [("join_on_invite", c._join_on_invite),
       ("allowlist", .vpats c._allowlist),
       ("blocklist", .vpats c._blocklist)])])] := rfl

/-- C4: saving a store and then loading the saved mapping into a fresh store
reproduces the store exactly (in particular the same flag and the same
pattern sets, hence the same pattern source strings); the compiled patterns
in the saved mapping pass re-validation unchanged. -/
theorem c4_save_then_load_roundtrips (env : String → Bool) (c : Config) :
    load_toml env defaultConfig (save_toml c) = .ok (c, []) := by
  cases c
  rfl

/-- Entries whose key names no existing field can be dropped from a mapping
without changing the result of a load. -/
theorem load_config_dict_filter_known (env : String → Bool) :
    ∀ (c : Config) (d : List (String × PyVal)),
      _load_config_dict env c d
        = _load_config_dict env c
            (d.filter fun kv => decide (kv.1 ∈ existing_fields)) := by
  intro c d
  induction d generalizing c with
  | nil => rfl
  | cons kv rest ih =>
    obtain ⟨key, value⟩ := kv
    by_cases hk : key ∈ existing_fields
    · rw [List.filter_cons_of_pos (by simpa using hk),
        _load_config_dict, _load_config_dict, if_pos hk, if_pos hk]
      rcases hs : setattr0 env c key value with e | ⟨c2, out1⟩ <;>
        simp only [hs]
      rw [ih c2]
    · rw [List.filter_cons_of_neg (by simpa using hk),
        _load_config_dict, if_neg hk]
      exact ih c

/-- C6: keys of the loaded mapping that do not match a known logical field
name are ignored silently — they raise no error and cause no change: the
load of any mapping equals the load of its restriction to known keys, and a
mapping containing only unknown keys loads successfully, leaving every field
untouched and printing nothing. -/
theorem c6_unknown_keys_ignored_silently
    (env : String → Bool) (c : Config) (d : List (String × PyVal)) :
    _load_config_dict env c d
      = _load_config_dict env c
          (d.filter fun kv => decide (kv.1 ∈ existing_fields)) ∧
    ((∀ kv ∈ d, kv.1 ∉ existing_fields) →
      _load_config_dict env c d = .ok (c, [])) := by
  refine ⟨load_config_dict_filter_known env c d, fun h => ?_⟩
  have hnil : (d.filter fun kv => decide (kv.1 ∈ existing_fields)) = [] := by
    rw [List.filter_eq_nil_iff]
    intro kv hkv
    simpa using h kv hkv
  rw [load_config_dict_filter_known env c d, hnil]
  rfl

/-- C6 witness: a mapping holding an unrecognised key and the internal
(underscore-prefixed) spelling of a field name — which is not an accepted
key either — loads as a no-op on the default store. -/
theorem c6_unknown_keys_ignored_silently_witness :
    _load_config_dict reDemoValid defaultConfig
        [("frobnicate", .vbool true), ("_allowlist", .vlist [.s "x"])]
      = _load_config_dict reDemoValid defaultConfig
          ([("frobnicate", .vbool true), ("_allowlist", .vlist [.s "x"])].filter
            fun kv => decide (kv.1 ∈ existing_fields)) ∧
    _load_config_dict reDemoValid defaultConfig
        [("frobnicate", .vbool true), ("_allowlist", .vlist [.s "x"])]
      = .ok (defaultConfig, []) := by
  have T := c6_unknown_keys_ignored_silently reDemoValid defaultConfig
    [("frobnicate", .vbool true), ("_allowlist", .vlist [.s "x"])]
  exact ⟨T.1, T.2 (by decide)⟩

/-- C10: the `join_on_invite` setter performs no validation — it installs any
supplied value unchanged — and loading a mapping whose `join_on_invite`
value is a non-boolean (here an integer) raises no error and silently stores
that non-boolean value verbatim. -/
theorem c10_join_setter_accepts_any_value
    (env : String → Bool) (c : Config) (v : PyVal) (n : Int) :
    join_on_invite_set c v = { c with _join_on_invite := v } ∧
    _load_config_dict env c [("join_on_invite", .vint n)]
      = .ok ({ c with _join_on_invite := .vint n }, []) :=
  ⟨rfl, rfl⟩
